import Mathlib

/-!
Shallow embedding of `programs/staking-pool/src/lib.rs` (Anchor/Solana
staking pool). Identities (`Pubkey`) are modelled as naturals; `u64`
bookkeeping fields are naturals with the checked arithmetic of
`anchor_safe_math::SafeMath` made explicit (`safe_add` / `safe_sub` with
the `2^64 - 1` bound). Fallible handlers return `Except`.

The external SPL-token ledger is an external collaborator of the program
(not in the repository); it is modelled from the spec as a finite map
from token-account address to balance, where `transfer` fails exactly on
insufficient source balance and `mint_to` credits the destination. Each
handler also records the list of CPI ledger calls it issues, so that
"no ledger call happens" claims are expressible.
-/

namespace StakingPool

/-- Identities (Solana `Pubkey`), modelled as naturals. -/
abbrev Pubkey := Nat

/-- `const INIT_MAGIC_NUMBER: u64 = 0x6666` (lib.rs line 9). -/
def INIT_MAGIC_NUMBER : Nat := 0x6666

/-- Largest value representable in a `u64`. -/
def U64_MAX : Nat := 2 ^ 64 - 1

/-- The error kinds a handler invocation can surface: the six members of
`PoolError` (lib.rs lines 11-30), the two checked-arithmetic failures of
`anchor_safe_math`, the ledger's insufficient-balance failure, and
`AccountError` standing for a rejection by the Anchor accounts layer
(constraint / account-resolution failure) before the handler body runs. -/
inductive PErr where
  | InvalidMint
  | InvalidVault
  | InvalidProgramSigner
  | InvalidUserMintAccount
  | UserNotInitialized
  | ZeroAmount
  | ArithmeticOverflow
  | ArithmeticUnderflow
  | LedgerInsufficientFunds
  | AccountError
deriving Repr, DecidableEq

/-- `anchor_safe_math::SafeMath::safe_add` on `u64`: checked addition,
overflow is a reported failure. -/
def safe_add (a b : Nat) : Except PErr Nat :=
  if a + b ≤ U64_MAX then .ok (a + b) else .error .ArithmeticOverflow

/-- `anchor_safe_math::SafeMath::safe_sub` on `u64`: checked subtraction,
underflow is a reported failure. -/
def safe_sub (a b : Nat) : Except PErr Nat :=
  if b ≤ a then .ok (a - b) else .error .ArithmeticUnderflow

/-- `Pool` (lib.rs lines 34-54): the singleton pool record. The
7-byte layout `padding` field is omitted as pure memory layout. -/
structure Pool where
  magic : Nat
  program_signer : Pubkey
  mint : Pubkey
  vault : Pubkey
  staked_total : Nat
  nonce : Nat
deriving Repr, DecidableEq

/-- A fully zeroed pool record: the content of the `#[account(zero)]`
pool storage before `initialize` writes it. -/
def POOL_ZERO : Pool :=
  { magic := 0, program_signer := 0, mint := 0, vault := 0
    staked_total := 0, nonce := 0 }

/-- `UserState` (lib.rs lines 56-60): per-user record. -/
structure UserState where
  initialized : Bool
  staked_amount : Nat
deriving Repr, DecidableEq

/-- An SPL token account as presented to a handler: its address and its
`mint` and `owner` fields (its balance lives in the ledger). -/
structure TokenAccount where
  address : Pubkey
  mint : Pubkey
  owner : Pubkey
deriving Repr, DecidableEq

/-- Modelled from the spec: the external token ledger, a finite map from
token-account address to balance. -/
abbrev Ledger := List (Pubkey × Nat)

/-- Balance of a token account in the ledger (0 when absent). -/
def getBal : Ledger → Pubkey → Nat
  | [], _ => 0
  | (k, v) :: rest, a => if k = a then v else getBal rest a

/-- Write a token account's balance. -/
def setBal : Ledger → Pubkey → Nat → Ledger
  | [], a, v => [(a, v)]
  | (k, w) :: rest, a, v =>
      if k = a then (a, v) :: rest else (k, w) :: setBal rest a v

/-- Modelled from the spec: the external ledger's `transfer` operation;
it fails exactly when the source balance is insufficient
(`Ledger failures ... e.g., insufficient balance in the source account`). -/
def ledgerTransfer (l : Ledger) (src dst : Pubkey) (amount : Nat) :
    Except PErr Ledger :=
  if getBal l src < amount then .error .LedgerInsufficientFunds
  else
    let l1 := setBal l src (getBal l src - amount)
    .ok (setBal l1 dst (getBal l1 dst + amount))

/-- Modelled from the spec: the external ledger's `mint_to` operation,
crediting the destination account. -/
def ledgerMintTo (l : Ledger) (dst : Pubkey) (amount : Nat) : Ledger :=
  setBal l dst (getBal l dst + amount)

/-- Record of a CPI call issued by a handler to the external ledger. -/
inductive LedgerCall where
  | transfer (src dst authority : Pubkey) (amount : Nat)
  | mintTo (mint dst authority : Pubkey) (amount : Nat)
deriving Repr, DecidableEq

/-- `handle_initialize` (lib.rs lines 196-219). `derivedSigner` and
`derivedNonce` stand for the result of the external
`Pubkey::find_program_address` call on the (mint, pool) seeds: the
handler requires the supplied nonce and the presented program-signer key
to equal the derived pair (error `InvalidProgramSigner` otherwise), then
writes `magic`, `mint`, `vault`, `program_signer` (the derived key) and
`nonce` into the pool storage; `staked_total` is not written and keeps
its storage value. On success it issues no ledger calls. -/
def handle_init (storage : Pool) (derivedSigner : Pubkey) (derivedNonce : Nat)
    (programSignerKey mintKey vaultKey : Pubkey) (nonce : Nat) :
    Except PErr (Pool × List LedgerCall) :=
  if ¬ (nonce = derivedNonce ∧ programSignerKey = derivedSigner) then
    .error .InvalidProgramSigner
  else
    .ok ({ storage with
            magic := INIT_MAGIC_NUMBER
            mint := mintKey
            vault := vaultKey
            program_signer := derivedSigner
            nonce := nonce }, [])

/-- `handle_airdrop` (lib.rs lines 221-255): checks pool mint, pool
program-signer and destination account mint, then CPI-mints `amount` to
the user's token account, signed by the program signer. It never
mutates the pool or any user record (the pool is `load()`-ed immutably
and no user-state account is part of `AirDrop`). -/
def handle_airdrop (pool : Pool) (mintKey programSignerKey : Pubkey)
    (userMintAcc : TokenAccount) (ledger : Ledger) (amount : Nat) :
    Except PErr (Ledger × List LedgerCall) :=
  if ¬ (pool.mint = mintKey) then .error .InvalidMint
  else if ¬ (pool.program_signer = programSignerKey) then
    .error .InvalidProgramSigner
  else if ¬ (pool.mint = userMintAcc.mint) then .error .InvalidUserMintAccount
  else
    .ok (ledgerMintTo ledger userMintAcc.address amount,
         [LedgerCall.mintTo mintKey userMintAcc.address programSignerKey amount])

/-- `handle_initialize_user_state` (lib.rs lines 257-262): the fresh user
record, `initialized = true`, `staked_amount = 0`. -/
def handle_init_user_state : UserState :=
  { initialized := true, staked_amount := 0 }

/-- `handle_enter_staking` (lib.rs lines 264-293): the four `require!`
checks in source order (`ZeroAmount`, `InvalidMint`, `InvalidVault`,
`UserNotInitialized`), then the CPI transfer from the user's token
account to the vault authorized by the user, then the checked
bookkeeping commit (`safe_add` on `staked_total`, then on
`staked_amount`). -/
def handle_enter_staking (pool : Pool) (mintKey vaultKey : Pubkey)
    (userMintAcc : TokenAccount) (userState : UserState) (authority : Pubkey)
    (ledger : Ledger) (amount : Nat) :
    Except PErr (Pool × UserState × Ledger × List LedgerCall) :=
  if ¬ (0 < amount) then .error .ZeroAmount
  else if ¬ (pool.mint = mintKey) then .error .InvalidMint
  else if ¬ (pool.vault = vaultKey) then .error .InvalidVault
  else if ¬ userState.initialized then .error .UserNotInitialized
  else
    match ledgerTransfer ledger userMintAcc.address vaultKey amount with
    | .error e => .error e
    | .ok ledger1 =>
      match safe_add pool.staked_total amount with
      | .error e => .error e
      | .ok st =>
        match safe_add userState.staked_amount amount with
        | .error e => .error e
        | .ok sa =>
            .ok ({ pool with staked_total := st },
                 { userState with staked_amount := sa },
                 ledger1,
                 [LedgerCall.transfer userMintAcc.address vaultKey authority amount])

/-- `handle_leave_staking` (lib.rs lines 295-336): the same four checks
in the same order, then the CPI transfer from the vault to the user's
token account authorized by the presented program signer, then the
checked bookkeeping commit (`safe_sub` on `staked_total`, then on
`staked_amount`). -/
def handle_leave_staking (pool : Pool) (programSignerKey mintKey vaultKey : Pubkey)
    (userMintAcc : TokenAccount) (userState : UserState)
    (ledger : Ledger) (amount : Nat) :
    Except PErr (Pool × UserState × Ledger × List LedgerCall) :=
  if ¬ (0 < amount) then .error .ZeroAmount
  else if ¬ (pool.mint = mintKey) then .error .InvalidMint
  else if ¬ (pool.vault = vaultKey) then .error .InvalidVault
  else if ¬ userState.initialized then .error .UserNotInitialized
  else
    match ledgerTransfer ledger vaultKey userMintAcc.address amount with
    | .error e => .error e
    | .ok ledger1 =>
      match safe_sub pool.staked_total amount with
      | .error e => .error e
      | .ok st =>
        match safe_sub userState.staked_amount amount with
        | .error e => .error e
        | .ok sa =>
            .ok ({ pool with staked_total := st },
                 { userState with staked_amount := sa },
                 ledger1,
                 [LedgerCall.transfer vaultKey userMintAcc.address programSignerKey amount])

/-- Look up the user record at seeds `(pool, authority)`; one pool, so
keyed by the authority's key. -/
def lookupUser : List (Pubkey × UserState) → Pubkey → Option UserState
  | [], _ => none
  | (k, u) :: rest, a => if k = a then some u else lookupUser rest a

/-- Write back a user record (first occurrence of the key). -/
def setUser : List (Pubkey × UserState) → Pubkey → UserState →
    List (Pubkey × UserState)
  | [], a, v => [(a, v)]
  | (k, u) :: rest, a, v =>
      if k = a then (a, v) :: rest else (k, u) :: setUser rest a v

/-- Sum of all `staked_amount` fields over the user records. -/
def sumStaked : List (Pubkey × UserState) → Nat
  | [] => 0
  | (_, u) :: rest => u.staked_amount + sumStaked rest

/-- The observable state an invocation runs against: the singleton pool
record, the per-user records of that pool, and the external ledger. -/
structure Chain where
  pool : Pool
  users : List (Pubkey × UserState)
  ledger : Ledger
deriving Repr, DecidableEq

/-- The global bookkeeping invariant: the pool's `staked_total` equals
the sum of all users' `staked_amount`. -/
abbrev Inv (c : Chain) : Prop := c.pool.staked_total = sumStaked c.users

/-- The `InitializeUserState` instruction: the Anchor `init` constraint
fails when the record at seeds `(pool, authority)` already exists,
otherwise the record is created as by `handle_initialize_user_state`. -/
def initUserOp (c : Chain) (authority : Pubkey) : Except PErr Chain :=
  match lookupUser c.users authority with
  | some _ => .error .AccountError
  | none =>
      .ok { c with users := (authority, handle_init_user_state) :: c.users }

/-- The `EnterStaking` instruction: the Anchor accounts layer checks
`user_mint_acc.owner == authority && user_mint_acc.mint == mint`
(lib.rs lines 147-151) and resolves the `user_state` record at seeds
`(pool, authority)`, then `handle_enter_staking` runs and its updated
records are written back. -/
def enterStakingOp (c : Chain) (authority : Pubkey) (userMintAcc : TokenAccount)
    (mintKey vaultKey : Pubkey) (amount : Nat) :
    Except PErr (Chain × List LedgerCall) :=
  if ¬ (userMintAcc.owner = authority ∧ userMintAcc.mint = mintKey) then
    .error .AccountError
  else
    match lookupUser c.users authority with
    | none => .error .AccountError
    | some ust =>
        match handle_enter_staking c.pool mintKey vaultKey userMintAcc ust
            authority c.ledger amount with
        | .error e => .error e
        | .ok (p, u, l, calls) =>
            .ok ({ pool := p, users := setUser c.users authority u,
                   ledger := l }, calls)

/-- The `LeaveStaking` instruction: same accounts-layer checks as
`EnterStaking` (lib.rs lines 180-188), then `handle_leave_staking`. -/
def leaveStakingOp (c : Chain) (authority : Pubkey) (userMintAcc : TokenAccount)
    (programSignerKey mintKey vaultKey : Pubkey) (amount : Nat) :
    Except PErr (Chain × List LedgerCall) :=
  if ¬ (userMintAcc.owner = authority ∧ userMintAcc.mint = mintKey) then
    .error .AccountError
  else
    match lookupUser c.users authority with
    | none => .error .AccountError
    | some ust =>
        match handle_leave_staking c.pool programSignerKey mintKey vaultKey
            userMintAcc ust c.ledger amount with
        | .error e => .error e
        | .ok (p, u, l, calls) =>
            .ok ({ pool := p, users := setUser c.users authority u,
                   ledger := l }, calls)

/-- The `AirDrop` instruction: the Anchor accounts layer checks
`user_mint_acc.owner == authority` (lib.rs lines 100-104), then
`handle_airdrop` runs; only the external ledger changes. -/
def airdropOp (c : Chain) (authority : Pubkey) (userMintAcc : TokenAccount)
    (programSignerKey mintKey : Pubkey) (amount : Nat) :
    Except PErr (Chain × List LedgerCall) :=
  if ¬ (userMintAcc.owner = authority) then .error .AccountError
  else
    match handle_airdrop c.pool mintKey programSignerKey userMintAcc
        c.ledger amount with
    | .error e => .error e
    | .ok (l, calls) => .ok ({ c with ledger := l }, calls)

/-- Solana transaction semantics: a failed instruction reverts every
write, so committing an errored invocation leaves the state unchanged. -/
def commitTx (c : Chain) : Except PErr (Chain × List LedgerCall) → Chain
  | .ok (c1, _) => c1
  | .error _ => c

/-- One staking-path operation of the pool, as needed for the global
invariant: an `EnterStaking` or a `LeaveStaking` invocation with all its
caller-presented accounts. -/
inductive StakeOp where
  | enter (authority : Pubkey) (userMintAcc : TokenAccount)
      (mintKey vaultKey : Pubkey) (amount : Nat)
  | leave (authority : Pubkey) (userMintAcc : TokenAccount)
      (programSignerKey mintKey vaultKey : Pubkey) (amount : Nat)
deriving Repr, DecidableEq

/-- Run one staking-path operation. -/
def runStakeOp (c : Chain) : StakeOp → Except PErr (Chain × List LedgerCall)
  | .enter a acc mk vk amt => enterStakingOp c a acc mk vk amt
  | .leave a acc psk mk vk amt => leaveStakingOp c a acc psk mk vk amt

/-- Run a sequence of staking-path operations, all required to
succeed. -/
def runStakeOps : Chain → List StakeOp → Except PErr Chain
  | c, [] => .ok c
  | c, op :: ops =>
      match runStakeOp c op with
      | .error e => .error e
      | .ok (c1, _) => runStakeOps c1 ops

/-- A sample initialized pool record, used to evaluate the theorems on
concrete inputs. -/
def egPool : Pool :=
  { magic := INIT_MAGIC_NUMBER, program_signer := 5, mint := 1, vault := 2
    staked_total := 0, nonce := 7 }

/-- A sample user-owned token account of the pool's mint: address 10,
mint 1, owner 3. -/
def egAcc : TokenAccount := { address := 10, mint := 1, owner := 3 }

/-- A sample chain state: the pool of `egPool`, one initialized user
(key 3) with nothing staked, the user's token account holding 100 and
the vault empty. -/
def egChain : Chain :=
  { pool := egPool
    users := [(3, { initialized := true, staked_amount := 0 })]
    ledger := [(10, 100), (2, 0)] }

/-- A sample run: user 3 stakes 60, then unstakes 25. -/
def egOps : List StakeOp :=
  [StakeOp.enter 3 egAcc 1 2 60, StakeOp.leave 3 egAcc 5 1 2 25]

/-- The chain state reached by running `egOps` from `egChain`. -/
def egChainAfter : Chain :=
  { pool := { egPool with staked_total := 35 }
    users := [(3, { initialized := true, staked_amount := 35 })]
    ledger := [(10, 65), (2, 35)] }

/-- `egChain` with the pool's magic field corrupted to 0. -/
def badMagicChain : Chain :=
  { egChain with pool := { egPool with magic := 0 } }

/-- `egChain` before user 3 has been initialized. -/
def egChainNoUser : Chain :=
  { pool := egPool, users := [], ledger := [(10, 100), (2, 0)] }

/-- The intermediate state of the sample round trip: user 3 initialized
and 50 staked. -/
def egMid : Chain :=
  { pool := { egPool with staked_total := 50 }
    users := [(3, { initialized := true, staked_amount := 50 })]
    ledger := [(10, 50), (2, 50)] }

/-! ### Helper lemmas -/

theorem safe_add_ok {a b c : Nat} :
    safe_add a b = .ok c ↔ a + b ≤ U64_MAX ∧ c = a + b := by
  unfold safe_add
  split <;> simp_all
  all_goals omega

theorem safe_sub_ok {a b c : Nat} :
    safe_sub a b = .ok c ↔ b ≤ a ∧ c = a - b := by
  unfold safe_sub
  split <;> simp_all
  all_goals omega

theorem safe_sub_error {a b : Nat} {e : PErr}
    (h : safe_sub a b = .error e) : e = .ArithmeticUnderflow ∧ a < b := by
  unfold safe_sub at h
  split at h <;> simp_all

theorem ledgerTransfer_error {l : Ledger} {s d : Pubkey} {a : Nat} {e : PErr}
    (h : ledgerTransfer l s d a = .error e) : e = .LedgerInsufficientFunds := by
  unfold ledgerTransfer at h
  split at h <;> simp_all

theorem sumStaked_setUser (us : List (Pubkey × UserState)) (k : Pubkey)
    (u v : UserState) (h : lookupUser us k = some u) :
    sumStaked (setUser us k v) + u.staked_amount
      = sumStaked us + v.staked_amount := by
  induction us with
  | nil => simp [lookupUser] at h
  | cons hd tl ih =>
      obtain ⟨hk, hu⟩ := hd
      by_cases hcase : hk = k
      · subst hcase
        simp [lookupUser] at h
        subst h
        simp [setUser, sumStaked]
        omega
      · simp [lookupUser, hcase] at h
        simp [setUser, hcase, sumStaked]
        have := ih h
        omega

theorem enter_ok_elim {pool : Pool} {mk vk : Pubkey} {acc : TokenAccount}
    {ust : UserState} {auth : Pubkey} {l : Ledger} {amt : Nat}
    {p : Pool} {u : UserState} {l2 : Ledger} {calls : List LedgerCall}
    (h : handle_enter_staking pool mk vk acc ust auth l amt
          = .ok (p, u, l2, calls)) :
    0 < amt ∧ pool.mint = mk ∧ pool.vault = vk ∧ ust.initialized = true ∧
    pool.staked_total + amt ≤ U64_MAX ∧ ust.staked_amount + amt ≤ U64_MAX ∧
    p = { pool with staked_total := pool.staked_total + amt } ∧
    u = { ust with staked_amount := ust.staked_amount + amt } := by
  unfold handle_enter_staking at h
  repeat' split at h
  all_goals simp_all [safe_add_ok]
  all_goals omega

theorem leave_ok_elim {pool : Pool} {psk mk vk : Pubkey} {acc : TokenAccount}
    {ust : UserState} {l : Ledger} {amt : Nat}
    {p : Pool} {u : UserState} {l2 : Ledger} {calls : List LedgerCall}
    (h : handle_leave_staking pool psk mk vk acc ust l amt
          = .ok (p, u, l2, calls)) :
    0 < amt ∧ pool.mint = mk ∧ pool.vault = vk ∧ ust.initialized = true ∧
    amt ≤ pool.staked_total ∧ amt ≤ ust.staked_amount ∧
    p = { pool with staked_total := pool.staked_total - amt } ∧
    u = { ust with staked_amount := ust.staked_amount - amt } := by
  unfold handle_leave_staking at h
  repeat' split at h
  all_goals simp_all [safe_sub_ok]
  all_goals omega

theorem enterOp_preserves_Inv {c : Chain} {a : Pubkey} {acc : TokenAccount}
    {mk vk : Pubkey} {amt : Nat} {c1 : Chain} {calls : List LedgerCall}
    (hok : enterStakingOp c a acc mk vk amt = .ok (c1, calls)) (hInv : Inv c) :
    Inv c1 := by
  unfold enterStakingOp at hok
  split at hok
  · exact absurd hok (by simp)
  · split at hok
    · exact absurd hok (by simp)
    · rename_i ust heq
      split at hok
      · exact absurd hok (by simp)
      · rename_i p u l calls0 hok2
        obtain ⟨_, _, _, _, _, _, hp, hu⟩ := enter_ok_elim hok2
        have hsum := sumStaked_setUser c.users a ust u heq
        simp only [Except.ok.injEq, Prod.mk.injEq] at hok
        obtain ⟨hc1, -⟩ := hok
        subst hc1
        simp only [Inv] at hInv ⊢
        simp only [hp, hu] at *
        omega

theorem leaveOp_preserves_Inv {c : Chain} {a : Pubkey} {acc : TokenAccount}
    {psk mk vk : Pubkey} {amt : Nat} {c1 : Chain} {calls : List LedgerCall}
    (hok : leaveStakingOp c a acc psk mk vk amt = .ok (c1, calls))
    (hInv : Inv c) : Inv c1 := by
  unfold leaveStakingOp at hok
  split at hok
  · exact absurd hok (by simp)
  · split at hok
    · exact absurd hok (by simp)
    · rename_i ust heq
      split at hok
      · exact absurd hok (by simp)
      · rename_i p u l calls0 hok2
        obtain ⟨_, _, _, _, hple, hule, hp, hu⟩ := leave_ok_elim hok2
        have hsum := sumStaked_setUser c.users a ust u heq
        simp only [Except.ok.injEq, Prod.mk.injEq] at hok
        obtain ⟨hc1, -⟩ := hok
        subst hc1
        simp only [Inv] at hInv ⊢
        simp only [hp, hu] at *
        omega

theorem leave_underflow_handler (pool : Pool) (psk mk vk : Pubkey)
    (acc : TokenAccount) (ust : UserState) (l : Ledger) (amount : Nat)
    (hmint : pool.mint = mk) (hvault : pool.vault = vk)
    (hinit : ust.initialized = true) (hover : ust.staked_amount < amount) :
    handle_leave_staking pool psk mk vk acc ust l amount
        = .error .LedgerInsufficientFunds ∨
    handle_leave_staking pool psk mk vk acc ust l amount
        = .error .ArithmeticUnderflow := by
  have h0 : 0 < amount := Nat.lt_of_le_of_lt (Nat.zero_le _) hover
  cases hL : ledgerTransfer l vk acc.address amount with
  | error e =>
      left
      have he := ledgerTransfer_error hL
      subst he
      simp [handle_leave_staking, h0, hmint, hvault, hinit, hL]
  | ok l1 =>
      right
      cases hS : safe_sub pool.staked_total amount with
      | error e =>
          have he := (safe_sub_error hS).1
          subst he
          simp [handle_leave_staking, h0, hmint, hvault, hinit, hL, hS]
      | ok st =>
          have hS2 : safe_sub ust.staked_amount amount
              = .error .ArithmeticUnderflow := by
            unfold safe_sub
            rw [if_neg (Nat.not_le.mpr hover)]
          simp [handle_leave_staking, h0, hmint, hvault, hinit, hL, hS, hS2]

theorem initUserOp_ok_elim {c : Chain} {auth : Pubkey} {c1 : Chain}
    (h : initUserOp c auth = .ok c1) :
    lookupUser c.users auth = none ∧
    c1 = { c with users := (auth, handle_init_user_state) :: c.users } := by
  unfold initUserOp at h
  split at h
  · exact absurd h (by simp)
  · rename_i hnone
    simp only [Except.ok.injEq] at h
    exact ⟨hnone, h.symm⟩

theorem enterOp_ok_elim {c : Chain} {auth : Pubkey} {acc : TokenAccount}
    {mk vk : Pubkey} {amount : Nat} {c2 : Chain} {calls : List LedgerCall}
    (h : enterStakingOp c auth acc mk vk amount = .ok (c2, calls)) :
    ∃ ust, lookupUser c.users auth = some ust ∧
      c2.pool = { c.pool with
                  staked_total := c.pool.staked_total + amount } ∧
      c2.users = setUser c.users auth
        { ust with staked_amount := ust.staked_amount + amount } := by
  unfold enterStakingOp at h
  split at h
  · exact absurd h (by simp)
  · split at h
    · exact absurd h (by simp)
    · rename_i ust heq
      split at h
      · exact absurd h (by simp)
      · rename_i p u l calls0 hok
        obtain ⟨-, -, -, -, -, -, hp, hu⟩ := enter_ok_elim hok
        simp only [Except.ok.injEq, Prod.mk.injEq] at h
        obtain ⟨hc2, -⟩ := h
        subst hc2
        exact ⟨ust, heq, by simp [hp], by simp [hu]⟩

theorem leaveOp_ok_elim {c : Chain} {auth : Pubkey} {acc : TokenAccount}
    {psk mk vk : Pubkey} {amount : Nat} {c2 : Chain} {calls : List LedgerCall}
    (h : leaveStakingOp c auth acc psk mk vk amount = .ok (c2, calls)) :
    ∃ ust, lookupUser c.users auth = some ust ∧
      amount ≤ ust.staked_amount ∧ amount ≤ c.pool.staked_total ∧
      c2.pool = { c.pool with
                  staked_total := c.pool.staked_total - amount } ∧
      c2.users = setUser c.users auth
        { ust with staked_amount := ust.staked_amount - amount } := by
  unfold leaveStakingOp at h
  split at h
  · exact absurd h (by simp)
  · split at h
    · exact absurd h (by simp)
    · rename_i ust heq
      split at h
      · exact absurd h (by simp)
      · rename_i p u l calls0 hok
        obtain ⟨-, -, -, -, hple, hule, hp, hu⟩ := leave_ok_elim hok
        simp only [Except.ok.injEq, Prod.mk.injEq] at h
        obtain ⟨hc2, -⟩ := h
        subst hc2
        exact ⟨ust, heq, hule, hple, by simp [hp], by simp [hu]⟩

theorem airdrop_ok_elim {pool : Pool} {mk psk : Pubkey} {acc : TokenAccount}
    {l : Ledger} {amount : Nat} {l1 : Ledger} {calls : List LedgerCall}
    (h : handle_airdrop pool mk psk acc l amount = .ok (l1, calls)) :
    pool.mint = mk ∧ pool.program_signer = psk ∧ pool.mint = acc.mint ∧
    l1 = ledgerMintTo l acc.address amount ∧
    calls = [LedgerCall.mintTo mk acc.address psk amount] := by
  unfold handle_airdrop at h
  repeat' split at h
  all_goals simp_all

theorem airdrop_error_elim {pool : Pool} {mk psk : Pubkey}
    {acc : TokenAccount} {l : Ledger} {amount : Nat} {e : PErr}
    (h : handle_airdrop pool mk psk acc l amount = .error e) :
    e = .InvalidMint ∨ e = .InvalidProgramSigner ∨
    e = .InvalidUserMintAccount := by
  unfold handle_airdrop at h
  repeat' split at h
  all_goals simp_all

/-! ### Claims -/

/-- C5: for every claimed authority identity and every nonce, initialize
fails with `InvalidProgramSigner` whenever the claimed authority differs
from the derived authority or the supplied nonce differs from the
derived nonce; in particular a forged authority is rejected for any
nonce. The error return means no pool fields are written: in this model
an erroring invocation produces no pool record at all. -/
theorem C5_reject_forged_signer (storage : Pool) (derivedSigner : Pubkey)
    (derivedNonce : Nat) (programSignerKey mintKey vaultKey : Pubkey)
    (nonce : Nat)
    (hforged : programSignerKey ≠ derivedSigner ∨ nonce ≠ derivedNonce) :
    handle_init storage derivedSigner derivedNonce programSignerKey mintKey
      vaultKey nonce = .error .InvalidProgramSigner := by
  rcases hforged with h | h <;> simp [handle_init, h]

/-- Witness for C5: a forged program signer (99 instead of the derived 5)
is rejected, here with the correct nonce 7. -/
theorem C5_witness :
    handle_init POOL_ZERO 5 7 99 1 2 7 = .error .InvalidProgramSigner :=
  C5_reject_forged_signer POOL_ZERO 5 7 99 1 2 7 (Or.inl (by decide))

/-- C6: a successful initialize on zeroed pool storage writes the magic
marker, the presented mint and vault, the derived program signer and the
supplied nonce, leaves `staked_total` at 0, and issues no ledger call
(the returned call list is empty). -/
theorem C6_init_writes_pool (derivedSigner : Pubkey) (derivedNonce : Nat)
    (programSignerKey mintKey vaultKey : Pubkey) (nonce : Nat)
    (hnonce : nonce = derivedNonce) (hsigner : programSignerKey = derivedSigner) :
    handle_init POOL_ZERO derivedSigner derivedNonce programSignerKey mintKey
      vaultKey nonce =
    .ok ({ magic := INIT_MAGIC_NUMBER, program_signer := derivedSigner
           mint := mintKey, vault := vaultKey, staked_total := 0
           nonce := nonce }, []) := by
  simp [handle_init, hnonce, hsigner, POOL_ZERO]

/-- Witness for C6: a concrete successful initialize. -/
theorem C6_witness :
    handle_init POOL_ZERO 5 7 5 1 2 7 =
      .ok ({ magic := INIT_MAGIC_NUMBER, program_signer := 5, mint := 1
             vault := 2, staked_total := 0, nonce := 7 }, []) :=
  C6_init_writes_pool 5 7 5 1 2 7 rfl rfl

/-- C1: for every sequence of successful enter_staking / leave_staking
operations across any set of users of one pool, starting from a state
where the pool's `staked_total` equals the sum of all users'
`staked_amount` (as after initialize and initialize_user calls, which
produce total 0 and fresh users with 0), the pool's `staked_total`
equals the sum of all `staked_amount` values again after each successful
operation (every prefix of the sequence is itself such a sequence, so
the conclusion holds at every intermediate state as well). -/
theorem C1_staked_total_invariant (c : Chain) (ops : List StakeOp) (c1 : Chain)
    (hInv : c.pool.staked_total = sumStaked c.users)
    (hrun : runStakeOps c ops = .ok c1) :
    c1.pool.staked_total = sumStaked c1.users := by
  induction ops generalizing c with
  | nil =>
      simp only [runStakeOps, Except.ok.injEq] at hrun
      subst hrun
      exact hInv
  | cons op ops ih =>
      unfold runStakeOps at hrun
      split at hrun
      · exact absurd hrun (by simp)
      · rename_i c2 calls heq
        cases op with
        | enter a acc mk vk amt =>
            simp only [runStakeOp] at heq
            exact ih c2 (enterOp_preserves_Inv heq hInv) hrun
        | leave a acc psk mk vk amt =>
            simp only [runStakeOp] at heq
            exact ih c2 (leaveOp_preserves_Inv heq hInv) hrun

/-- Witness for C1: running the sample stake-then-unstake sequence from
`egChain` (where total 0 = sum 0) lands in `egChainAfter`, whose total
35 again equals the sum of staked amounts. -/
theorem C1_witness :
    egChainAfter.pool.staked_total = sumStaked egChainAfter.users :=
  C1_staked_total_invariant egChain egOps egChainAfter (by decide) (by rfl)

/-- C2: enter_staking and leave_staking check their four preconditions
in source order, each with its distinct error: a zero amount gives
`ZeroAmount` regardless of everything else; with a positive amount a
mint mismatch gives `InvalidMint` even if vault or initialization would
also fail; with mint matching, a vault mismatch gives `InvalidVault`
even if initialization would also fail; with both matching, an
uninitialized user gives `UserNotInitialized`. Each conclusion holds
for every ledger, so the failing check neither depends on nor touches
the ledger: the error is produced before any ledger call. -/
theorem C2_precondition_order (pool : Pool) (programSignerKey mintKey
    vaultKey : Pubkey) (userMintAcc : TokenAccount) (ust : UserState)
    (auth : Pubkey) (ledger : Ledger) (amount : Nat) :
    (amount = 0 →
      handle_enter_staking pool mintKey vaultKey userMintAcc ust auth ledger
        amount = .error .ZeroAmount ∧
      handle_leave_staking pool programSignerKey mintKey vaultKey userMintAcc
        ust ledger amount = .error .ZeroAmount) ∧
    (0 < amount → pool.mint ≠ mintKey →
      handle_enter_staking pool mintKey vaultKey userMintAcc ust auth ledger
        amount = .error .InvalidMint ∧
      handle_leave_staking pool programSignerKey mintKey vaultKey userMintAcc
        ust ledger amount = .error .InvalidMint) ∧
    (0 < amount → pool.mint = mintKey → pool.vault ≠ vaultKey →
      handle_enter_staking pool mintKey vaultKey userMintAcc ust auth ledger
        amount = .error .InvalidVault ∧
      handle_leave_staking pool programSignerKey mintKey vaultKey userMintAcc
        ust ledger amount = .error .InvalidVault) ∧
    (0 < amount → pool.mint = mintKey → pool.vault = vaultKey →
      ust.initialized = false →
      handle_enter_staking pool mintKey vaultKey userMintAcc ust auth ledger
        amount = .error .UserNotInitialized ∧
      handle_leave_staking pool programSignerKey mintKey vaultKey userMintAcc
        ust ledger amount = .error .UserNotInitialized) := by
  refine ⟨?_, ?_, ?_, ?_⟩
  · intro h
    constructor <;> simp [handle_enter_staking, handle_leave_staking, h]
  · intro h0 hm
    constructor <;> simp [handle_enter_staking, handle_leave_staking, h0, hm]
  · intro h0 hm hv
    constructor <;> simp [handle_enter_staking, handle_leave_staking, h0, hm, hv]
  · intro h0 hm hv hi
    constructor <;>
      simp [handle_enter_staking, handle_leave_staking, h0, hm, hv, hi]

/-- Witness for C2: each of the four staged failures at a concrete
input, for both handlers: amount 0 on a fully well-formed call gives
`ZeroAmount`; amount 5 with wrong mint 9 gives `InvalidMint` even though
the vault is also wrong; wrong vault 9 gives `InvalidVault` even though
the user is uninitialized; and the uninitialized user gives
`UserNotInitialized` once everything else matches. -/
theorem C2_witness :
    (handle_enter_staking egPool 1 2 egAcc (⟨true, 0⟩ : UserState) 3 [] 0 = .error .ZeroAmount ∧
     handle_leave_staking egPool 5 1 2 egAcc (⟨true, 0⟩ : UserState) [] 0 = .error .ZeroAmount) ∧
    (handle_enter_staking egPool 9 9 egAcc (⟨false, 0⟩ : UserState) 3 [] 5 = .error .InvalidMint ∧
     handle_leave_staking egPool 5 9 9 egAcc (⟨false, 0⟩ : UserState) [] 5 = .error .InvalidMint) ∧
    (handle_enter_staking egPool 1 9 egAcc (⟨false, 0⟩ : UserState) 3 [] 5 = .error .InvalidVault ∧
     handle_leave_staking egPool 5 1 9 egAcc (⟨false, 0⟩ : UserState) [] 5 = .error .InvalidVault) ∧
    (handle_enter_staking egPool 1 2 egAcc (⟨false, 0⟩ : UserState) 3 [] 5 = .error .UserNotInitialized ∧
     handle_leave_staking egPool 5 1 2 egAcc (⟨false, 0⟩ : UserState) [] 5 = .error .UserNotInitialized) :=
  ⟨(C2_precondition_order egPool 5 1 2 egAcc (⟨true, 0⟩ : UserState) 3 [] 0).1 rfl,
   (C2_precondition_order egPool 5 9 9 egAcc (⟨false, 0⟩ : UserState) 3 [] 5).2.1 (by decide) (by decide),
   (C2_precondition_order egPool 5 1 9 egAcc (⟨false, 0⟩ : UserState) 3 [] 5).2.2.1 (by decide) (by decide) (by decide),
   (C2_precondition_order egPool 5 1 2 egAcc (⟨false, 0⟩ : UserState) 3 [] 5).2.2.2 (by decide) (by decide) (by decide)
      rfl⟩

/-- C3: withdrawing more than the user's staked amount always fails —
with the ledger's insufficient-balance failure or with
`ArithmeticUnderflow`, whichever triggers first (the vault transfer runs
first; then the pool subtraction, then the user subtraction, so the
user-side underflow is surfaced even when the pool's `staked_total`
alone would have admitted the subtraction) — and committing the failed
invocation under transactional semantics leaves the whole state,
the user's `staked_amount` and the pool's `staked_total` included,
exactly as before. -/
theorem C3_leave_underflow_rejected (c : Chain) (auth : Pubkey)
    (acc : TokenAccount) (psk mk vk : Pubkey) (amount : Nat) (ust : UserState)
    (hownr : acc.owner = auth) (haccm : acc.mint = mk)
    (hu : lookupUser c.users auth = some ust)
    (hmint : c.pool.mint = mk) (hvault : c.pool.vault = vk)
    (hinit : ust.initialized = true)
    (hover : ust.staked_amount < amount) :
    (leaveStakingOp c auth acc psk mk vk amount
        = .error .LedgerInsufficientFunds ∨
     leaveStakingOp c auth acc psk mk vk amount
        = .error .ArithmeticUnderflow) ∧
    commitTx c (leaveStakingOp c auth acc psk mk vk amount) = c := by
  have hh := leave_underflow_handler c.pool psk mk vk acc ust c.ledger amount
    hmint hvault hinit hover
  have heq : ∀ e, handle_leave_staking c.pool psk mk vk acc ust c.ledger
      amount = .error e →
      leaveStakingOp c auth acc psk mk vk amount = .error e := by
    intro e he
    simp [leaveStakingOp, hownr, haccm, hu, he]
  rcases hh with h | h
  · have h2 := heq _ h
    exact ⟨Or.inl h2, by rw [h2]; rfl⟩
  · have h2 := heq _ h
    exact ⟨Or.inr h2, by rw [h2]; rfl⟩

/-- Witness for C3: user 3 has 0 staked; leave_staking(101) on the
sample chain fails (here the empty vault makes the ledger transfer
fail first) and the committed state is unchanged. -/
theorem C3_witness :
    (leaveStakingOp egChain 3 egAcc 5 1 2 101
        = .error .LedgerInsufficientFunds ∨
     leaveStakingOp egChain 3 egAcc 5 1 2 101
        = .error .ArithmeticUnderflow) ∧
    commitTx egChain (leaveStakingOp egChain 3 egAcc 5 1 2 101) = egChain :=
  C3_leave_underflow_rejected egChain 3 egAcc 5 1 2 101 ⟨true, 0⟩
    (by decide) (by decide) (by decide) (by decide) (by decide) (by decide)
    (by decide)

/-- C4: whenever the sequence initialize_user, enter_staking(amount),
leave_staking(amount) for one user succeeds, the user's `staked_amount`
ends at 0 and the pool's `staked_total` is back at its pre-sequence
value — for every amount, 50 included. -/
theorem C4_round_trip (c : Chain) (auth : Pubkey) (acc : TokenAccount)
    (psk mk vk : Pubkey) (amount : Nat) (c1 c2 c3 : Chain)
    (calls2 calls3 : List LedgerCall)
    (h1 : initUserOp c auth = .ok c1)
    (h2 : enterStakingOp c1 auth acc mk vk amount = .ok (c2, calls2))
    (h3 : leaveStakingOp c2 auth acc psk mk vk amount = .ok (c3, calls3)) :
    lookupUser c3.users auth = some { initialized := true, staked_amount := 0 }
    ∧ c3.pool.staked_total = c.pool.staked_total := by
  obtain ⟨hnone, hc1⟩ := initUserOp_ok_elim h1
  subst hc1
  obtain ⟨ust2, hlk2, hp2, hu2⟩ := enterOp_ok_elim h2
  simp only [lookupUser] at hlk2
  simp at hlk2
  subst hlk2
  simp only [handle_init_user_state] at hu2
  simp [setUser] at hu2
  obtain ⟨ust3, hlk3, hule3, hple3, hp3, hu3⟩ := leaveOp_ok_elim h3
  rw [hu2] at hlk3
  simp [lookupUser] at hlk3
  subst hlk3
  rw [hu2] at hu3
  simp [setUser] at hu3
  constructor
  · rw [hu3]
    simp [lookupUser]
  · rw [hp3, hp2]
    simp

/-- Witness for C4: the concrete round trip with amount 50 from
`egChainNoUser` through `egChain` and `egMid` back to `egChain`:
user 3 ends with 0 staked and the pool total is back at 0. -/
theorem C4_witness :
    lookupUser egChain.users 3
      = some { initialized := true, staked_amount := 0 } ∧
    egChain.pool.staked_total = egChainNoUser.pool.staked_total :=
  C4_round_trip egChainNoUser 3 egAcc 5 1 2 50 egChain egMid egChain
    [LedgerCall.transfer 10 2 3 50] [LedgerCall.transfer 2 10 5 50]
    (by rfl) (by rfl) (by rfl)

/-- C7 counterexample: the claim "every operation that reads the pool
record rejects the invocation when the pool's validity marker does not
match the creation-time constant" is false on the code: no handler reads
`magic`. Concretely, on a chain whose pool has `magic = 0` (and
`0 ≠ 0x6666`), enter_staking succeeds, moves ledger funds and mutates
bookkeeping state. -/
theorem C7_counterexample :
    badMagicChain.pool.magic ≠ INIT_MAGIC_NUMBER ∧
    enterStakingOp badMagicChain 3 egAcc 1 2 50
      = .ok ({ pool := { magic := 0, program_signer := 5, mint := 1, vault := 2
                         staked_total := 50, nonce := 7 }
               users := [(3, { initialized := true, staked_amount := 50 })]
               ledger := [(10, 50), (2, 50)] },
             [LedgerCall.transfer 10 2 3 50]) := by
  exact ⟨by decide, by rfl⟩

/-- C7 (amended): the pool's `magic` marker is written at creation but
never validated afterwards: airdrop, enter_staking and leave_staking
ignore the field entirely. Airdrop's outcome is literally identical for
any marker value, and the staking handlers' outcome is identical up to
the (unread) marker value being carried through into the returned pool
record: rejection or acceptance never depends on the marker. -/
theorem C7_amended_magic_never_checked (pool : Pool) (m : Nat)
    (psk mk vk : Pubkey) (acc : TokenAccount) (ust : UserState)
    (auth : Pubkey) (l : Ledger) (amount : Nat) :
    handle_airdrop { pool with magic := m } mk psk acc l amount
      = handle_airdrop pool mk psk acc l amount ∧
    handle_enter_staking { pool with magic := m } mk vk acc ust auth l amount
      = Except.map (fun r => ({ r.1 with magic := m }, r.2))
          (handle_enter_staking pool mk vk acc ust auth l amount) ∧
    handle_leave_staking { pool with magic := m } psk mk vk acc ust l amount
      = Except.map (fun r => ({ r.1 with magic := m }, r.2))
          (handle_leave_staking pool psk mk vk acc ust l amount) := by
  refine ⟨rfl, ?_, ?_⟩
  · by_cases h1 : 0 < amount
    · by_cases h2 : pool.mint = mk
      · by_cases h3 : pool.vault = vk
        · by_cases h4 : ust.initialized
          · cases hL : ledgerTransfer l acc.address vk amount with
            | error e =>
                simp [handle_enter_staking, h1, h2, h3, h4, hL, Except.map]
            | ok l1 =>
                cases hA : safe_add pool.staked_total amount with
                | error e =>
                    simp [handle_enter_staking, h1, h2, h3, h4, hL, hA, Except.map]
                | ok st =>
                    cases hB : safe_add ust.staked_amount amount with
                    | error e =>
                        simp [handle_enter_staking, h1, h2, h3, h4, hL, hA, hB, Except.map]
                    | ok sa =>
                        simp [handle_enter_staking, h1, h2, h3, h4, hL, hA, hB, Except.map]
          · simp [handle_enter_staking, h1, h2, h3, h4, Except.map]
        · simp [handle_enter_staking, h1, h2, h3, Except.map]
      · simp [handle_enter_staking, h1, h2, Except.map]
    · simp [handle_enter_staking, h1, Except.map]
  · by_cases h1 : 0 < amount
    · by_cases h2 : pool.mint = mk
      · by_cases h3 : pool.vault = vk
        · by_cases h4 : ust.initialized
          · cases hL : ledgerTransfer l vk acc.address amount with
            | error e =>
                simp [handle_leave_staking, h1, h2, h3, h4, hL, Except.map]
            | ok l1 =>
                cases hA : safe_sub pool.staked_total amount with
                | error e =>
                    simp [handle_leave_staking, h1, h2, h3, h4, hL, hA, Except.map]
                | ok st =>
                    cases hB : safe_sub ust.staked_amount amount with
                    | error e =>
                        simp [handle_leave_staking, h1, h2, h3, h4, hL, hA, hB, Except.map]
                    | ok sa =>
                        simp [handle_leave_staking, h1, h2, h3, h4, hL, hA, hB, Except.map]
          · simp [handle_leave_staking, h1, h2, h3, h4, Except.map]
        · simp [handle_leave_staking, h1, h2, h3, Except.map]
      · simp [handle_leave_staking, h1, h2, Except.map]
    · simp [handle_leave_staking, h1, Except.map]

/-- C8: a successful airdrop leaves the pool record (in particular
`staked_total`) and every user record untouched, and the only ledger
call it issues is the external mint to the user's token account. -/
theorem C8_airdrop_frame (c : Chain) (auth : Pubkey) (acc : TokenAccount)
    (psk mk : Pubkey) (amount : Nat) (c1 : Chain) (calls : List LedgerCall)
    (h : airdropOp c auth acc psk mk amount = .ok (c1, calls)) :
    c1.pool = c.pool ∧ c1.users = c.users ∧
    calls = [LedgerCall.mintTo mk acc.address psk amount] := by
  unfold airdropOp at h
  split at h
  · exact absurd h (by simp)
  · split at h
    · exact absurd h (by simp)
    · rename_i l1 calls0 hok
      obtain ⟨-, -, -, -, hcalls⟩ := airdrop_ok_elim hok
      simp only [Except.ok.injEq, Prod.mk.injEq] at h
      obtain ⟨hc1, hcl⟩ := h
      subst hc1
      refine ⟨rfl, rfl, ?_⟩
      rw [← hcl]
      exact hcalls

/-- Witness for C8: a successful concrete airdrop of 7 to user 3's
token account leaves pool and user records unchanged and mints once. -/
theorem C8_witness :
    ({ egChain with ledger := [(10, 107), (2, 0)] } : Chain).pool
      = egChain.pool ∧
    ({ egChain with ledger := [(10, 107), (2, 0)] } : Chain).users
      = egChain.users ∧
    [LedgerCall.mintTo 1 egAcc.address 5 7]
      = [LedgerCall.mintTo 1 egAcc.address 5 7] :=
  C8_airdrop_frame egChain 3 egAcc 5 1 7
    { egChain with ledger := [(10, 107), (2, 0)] }
    [LedgerCall.mintTo 1 egAcc.address 5 7] (by rfl)

/-- C9: airdrop performs no positivity check on its amount: no
invocation ever fails with `ZeroAmount`, and when its actual
preconditions (owner constraint, mint match, program-signer match,
destination-mint match) hold, airdrop(0) succeeds and invokes the
external mint with amount 0. -/
theorem C9_airdrop_no_zero_amount_check (c : Chain) (auth : Pubkey)
    (acc : TokenAccount) (psk mk : Pubkey) :
    (∀ amount e, airdropOp c auth acc psk mk amount = .error e →
        e ≠ .ZeroAmount) ∧
    (acc.owner = auth → c.pool.mint = mk → c.pool.program_signer = psk →
     c.pool.mint = acc.mint →
     airdropOp c auth acc psk mk 0 =
       .ok ({ c with ledger := ledgerMintTo c.ledger acc.address 0 },
            [LedgerCall.mintTo mk acc.address psk 0])) := by
  constructor
  · intro amount e h
    unfold airdropOp at h
    split at h
    · simp only [Except.error.injEq] at h
      subst h
      simp
    · split at h
      · rename_i e2 hh
        simp only [Except.error.injEq] at h
        subst h
        rcases airdrop_error_elim hh with h1 | h1 | h1 <;> simp [h1]
      · exact absurd h (by simp)
  · intro h1 h2 h3 h4
    have h24 : mk = acc.mint := by rw [← h2, h4]
    simp [airdropOp, handle_airdrop, h1, h2, h3, h4, h24]

/-- Witness for C9: with matching accounts, airdrop(0) on the sample
chain succeeds and mints 0; and a failing airdrop (wrong signer 9 as
authority, owner mismatch) surfaces an error that is not `ZeroAmount`. -/
theorem C9_witness :
    airdropOp egChain 3 egAcc 5 1 0 =
      .ok ({ egChain with
             ledger := ledgerMintTo egChain.ledger egAcc.address 0 },
           [LedgerCall.mintTo 1 egAcc.address 5 0]) ∧
    PErr.AccountError ≠ PErr.ZeroAmount :=
  ⟨(C9_airdrop_no_zero_amount_check egChain 3 egAcc 5 1).2 rfl rfl rfl rfl,
   (C9_airdrop_no_zero_amount_check egChain 9 egAcc 5 1).1 101 .AccountError
     (by rfl)⟩

/-- C10: the AirDrop accounts struct requires the destination token
account to be owned by the transaction's signer, and this is enforced
before the handler runs (here: before `handle_airdrop` is consulted, as
an `AccountError` distinct from every handler error); and there is no
further privileged-caller check — `auth` below is an arbitrary signer,
so any signer owning a matching token account who presents the recorded
program signer gets issuance to their own account. -/
theorem C10_airdrop_owner_constraint (c : Chain) (auth : Pubkey)
    (acc : TokenAccount) (psk mk : Pubkey) (amount : Nat) :
    (acc.owner ≠ auth →
      airdropOp c auth acc psk mk amount = .error .AccountError) ∧
    (acc.owner = auth → c.pool.mint = mk → c.pool.program_signer = psk →
     c.pool.mint = acc.mint →
     airdropOp c auth acc psk mk amount =
       .ok ({ c with ledger := ledgerMintTo c.ledger acc.address amount },
            [LedgerCall.mintTo mk acc.address psk amount])) := by
  constructor
  · intro hne
    simp [airdropOp, hne]
  · intro h1 h2 h3 h4
    have h24 : mk = acc.mint := by rw [← h2, h4]
    simp [airdropOp, handle_airdrop, h1, h2, h3, h4, h24]

/-- Witness for C10: signer 9 does not own the destination account, so
the invocation is rejected with the accounts-layer error; signer 3, who
owns it, receives the 40-token issuance with no further privilege
check. -/
theorem C10_witness :
    airdropOp egChain 9 egAcc 5 1 40 = .error .AccountError ∧
    airdropOp egChain 3 egAcc 5 1 40 =
      .ok ({ egChain with
             ledger := ledgerMintTo egChain.ledger egAcc.address 40 },
           [LedgerCall.mintTo 1 egAcc.address 5 40]) :=
  ⟨(C10_airdrop_owner_constraint egChain 9 egAcc 5 1 40).1 (by decide),
   (C10_airdrop_owner_constraint egChain 3 egAcc 5 1 40).2 rfl rfl rfl rfl⟩

end StakingPool
